import Mathlib

/-!
Verification development for the `rap_framework_plugins` repository
(`rap_importer_plugin` package): a folder-watching pipeline runner.

The Python sources are shallowly embedded as executable Lean definitions:

* `fnmatch` models Python's `fnmatch.fnmatch` on POSIX (where
  `os.path.normcase` is the identity): shell-glob matching with `*`, `?`
  and `[...]` character classes.
* Paths are modelled as lists of components (`List String`); `pathStr`
  joins them with `"/"` as `str(Path)` does for relative paths.
* `PipelineManager` (pipeline.py) is modelled as a configuration record
  `PM` plus an explicit mutable-state record `PMState`; external effects
  (script execution results, filesystem queries, notifications) are
  modelled as oracle parameters and an emitted event list.
* `checkStability` (watcher.py) is modelled with discrete sampling: the
  size observed at poll `k` is `obs k`, and elapsed time at poll `k` is
  `k * check_interval` (time advances by the `sleep` between polls).
* Python's `str.format` is modelled by `pyFormat` for the subset used by
  the program: `{name}` placeholders, `{{`/`}}` escapes; a `KeyError`
  for an unknown name is `FmtErr.keyError`.
-/

namespace Rap

/-! ## Glob matching (model of `fnmatch.fnmatch` on POSIX) -/

/-- Scan for the first `]`, returning the chars before it and the rest after. -/
def findClose : List Char → Option (List Char × List Char)
  | [] => none
  | c :: t =>
    if c = ']' then some ([], t)
    else
      match findClose t with
      | none => none
      | some (a, b) => some (c :: a, b)

/-- Class body and rest of pattern, after the optional `!`: a `]` directly
after the opening (or after `!`) is a literal member, then content up to
the closing `]`. -/
def splitClassCore : List Char → Option (List Char × List Char)
  | [] => none
  | c :: t =>
    if c = ']' then
      match findClose t with
      | none => none
      | some (a, b) => some (']' :: a, b)
    else
      match findClose (c :: t) with
      | none => none
      | some (a, b) => some (a, b)

/-- Parse a character class after an opening `[`: optional leading `!`
(negation), then the class body.  Returns `(negated, content,
rest-of-pattern)`, or `none` when there is no closing `]` (the `[` is then
a literal char, as in Python's `fnmatch.translate`). -/
def splitClass (ps : List Char) : Option (Bool × List Char × List Char) :=
  match ps with
  | '!' :: t => (splitClassCore t).map (fun p => (true, p.1, p.2))
  | _ => (splitClassCore ps).map (fun p => (false, p.1, p.2))

/-- Membership of a char in a class body, with `a-z` ranges; a trailing
`-` is a literal member. -/
def classMatch : List Char → Char → Bool
  | [], _ => false
  | [a], c => a == c
  | [a, b], c => a == c || b == c
  | a :: b :: d :: rest, c =>
    if b = '-' then (decide (a ≤ c) && decide (c ≤ d)) || classMatch rest c
    else a == c || classMatch (b :: d :: rest) c

/-- Fuel-indexed glob matcher; `fuel` bounds the number of steps (each
step strictly shrinks pattern-length + string-length, so
`|pattern| + |string| + 1` fuel always suffices). -/
def globMatchF : Nat → List Char → List Char → Bool
  | 0, _, _ => false
  | _ + 1, [], s => s.isEmpty
  | fuel + 1, p :: ps, s =>
    if p = '*' then
      globMatchF fuel ps s ||
        (match s with
         | [] => false
         | _ :: cs => globMatchF fuel (p :: ps) cs)
    else if p = '?' then
      match s with
      | [] => false
      | _ :: cs => globMatchF fuel ps cs
    else if p = '[' then
      match splitClass ps with
      | none =>
        match s with
        | [] => false
        | c :: cs => (p == c) && globMatchF fuel ps cs
      | some (neg, content, rest) =>
        match s with
        | [] => false
        | c :: cs => (classMatch content c != neg) && globMatchF fuel rest cs
    else
      match s with
      | [] => false
      | c :: cs => (p == c) && globMatchF fuel ps cs

/-- Model of `fnmatch.fnmatch(name, pattern)` on POSIX (case-sensitive,
since `os.path.normcase` is the identity there). -/
def fnmatch (name pat : String) : Bool :=
  globMatchF (pat.length + name.length + 1) pat.toList name.toList

/-! ## Path helpers (paths as component lists) -/

/-- Join path components with `/` (as `str()` of a relative `Path`). -/
def pathStr : List String → String
  | [] => ""
  | [x] => x
  | x :: xs => x ++ "/" ++ pathStr xs

/-- Last path component (`Path.name`). -/
def lastName : List String → String
  | [] => ""
  | [x] => x
  | _ :: xs => lastName xs

/-- Model of `Path.relative_to`: strip `base` as a component prefix, or
`none` (the `ValueError` case) when `base` is not a prefix. -/
def relativeTo? : List String → List String → Option (List String)
  | fp, [] => some fp
  | [], _ :: _ => none
  | f :: fs, b :: bs => if f = b then relativeTo? fs bs else none

/-! ## Archive collision resolution (`_get_unique_archive_path`) -/

/-- Index of the last `.` in a list of chars, if any. -/
def rfindDot (l : List Char) : Option Nat :=
  (List.range l.length).reverse.find? (fun i => l.getD i ' ' = '.')

/-- Model of `PurePath.suffix`: the extension from the last dot, when that
dot is neither the first nor the last character. -/
def pySuffix (s : String) : String :=
  let l := s.toList
  match rfindDot l with
  | some i => if 0 < i ∧ i + 1 < l.length then String.mk (l.drop i) else ""
  | none => ""

/-- Model of `PurePath.stem`: the name with `pySuffix` removed. -/
def pyStem (s : String) : String :=
  let l := s.toList
  match rfindDot l with
  | some i => if 0 < i ∧ i + 1 < l.length then String.mk (l.take i) else s
  | none => s

/-- Zero-padded three-digit rendering of `i` (Python `f"{i:03d}"` for
`0 ≤ i ≤ 999`). -/
def pad3 (i : Nat) : String :=
  let s := toString i
  if s.length ≥ 3 then s else String.mk (List.replicate (3 - s.length) '0') ++ s

/-- The candidate archive name for collision slot `i`:
`f"{stem}-{i:03d}{suffix}"`. -/
def suffixedName (filename : String) (i : Nat) : String :=
  pyStem filename ++ "-" ++ pad3 i ++ pySuffix filename

/-- Error message raised when all 1000 suffix slots are taken. -/
def exhaustMsg (filename : String) : String :=
  "Archive suffix exhausted for " ++ filename ++ " (max -999)"

/-- The `for i in range(1000)` loop of `_get_unique_archive_path`,
with `remaining` slots left to try starting at slot `i`; the existence
check `dest.exists()` is the oracle `ex`. -/
def trySlots (ex : String → Bool) (filename : String) : Nat → Nat → Except String String
  | _, 0 => .error (exhaustMsg filename)
  | i, r + 1 =>
    let nm := suffixedName filename i
    if ex nm then trySlots ex filename (i + 1) r else .ok nm

/-- Model of `PipelineManager._get_unique_archive_path` for a fixed
archive directory: `ex nm` says whether `archive_dir / nm` exists. -/
def getUniqueArchivePath (ex : String → Bool) (filename : String) : Except String String :=
  if ex filename then trySlots ex filename 0 1000 else .ok filename

/-! ## Variable substitution (executor.py: `FileVariables`, `_substitute_*`) -/

/-- The left and right brace characters (written via code points so that
braces never appear literally inside string or char literals). -/
def lb : Char := Char.ofNat 123

/-- Right brace character. -/
def rb : Char := Char.ofNat 125

/-- Single-quote character, for building error messages. -/
def sq : String := String.singleton (Char.ofNat 39)

/-- Wrap a name in braces, as the error messages do with
`f"\x7b\x7bk\x7d\x7d"`. -/
def braced (k : String) : String :=
  String.singleton lb ++ k ++ String.singleton rb

/-- Lookup in an association list of variables (Python dict access). -/
def lookupStr (vd : List (String × String)) (k : String) : Option String :=
  match vd with
  | [] => none
  | (k0, v0) :: rest => if k0 = k then some v0 else lookupStr rest k

/-- Errors of the `str.format` model. -/
inductive FmtErr where
  | keyError (name : String)
  | malformed
deriving DecidableEq

/-- Scan a field up to the closing brace, returning (field, rest). -/
def spanField : List Char → Option (List Char × List Char)
  | [] => none
  | c :: t =>
    if c = rb then some ([], t)
    else
      match spanField t with
      | none => none
      | some (a, b) => some (c :: a, b)

/-- The field name: the part of the field before any `:` (format spec) or
`!` (conversion). -/
def takeName (field : List Char) : String :=
  String.mk (field.takeWhile (fun c => c ≠ ':' ∧ c ≠ '!'))

/-- Fuel-indexed model of Python `str.format(**vd)` for the subset the
program uses: `\x7bname\x7d` placeholders, doubled-brace escapes; an
unknown name is a `KeyError`, a stray brace a `ValueError` (`malformed`).
A format spec after `:` is parsed but not applied (the program only uses
bare placeholders).  Each step consumes at least one char, so
`length + 1` fuel suffices. -/
def pyFormatAux (vd : List (String × String)) : Nat → List Char → Except FmtErr (List Char)
  | 0, _ => .error .malformed
  | _ + 1, [] => .ok []
  | fuel + 1, c :: rest =>
    if c = lb then
      match rest with
      | [] => .error .malformed
      | c2 :: rest2 =>
        if c2 = lb then
          (pyFormatAux vd fuel rest2).map (fun t => lb :: t)
        else
          match spanField (c2 :: rest2) with
          | none => .error .malformed
          | some (field, rest3) =>
            match lookupStr vd (takeName field) with
            | none => .error (.keyError (takeName field))
            | some v => (pyFormatAux vd fuel rest3).map (fun t => v.toList ++ t)
    else if c = rb then
      match rest with
      | c2 :: rest2 =>
        if c2 = rb then (pyFormatAux vd fuel rest2).map (fun t => rb :: t)
        else .error .malformed
      | [] => .error .malformed
    else
      (pyFormatAux vd fuel rest).map (fun t => c :: t)

/-- Model of `value.format(**vd)`. -/
def pyFormat (value : String) (vd : List (String × String)) : Except FmtErr String :=
  (pyFormatAux vd (value.length + 1) value.toList).map String.mk

/-- The sorted key list: `sorted(var_dict.keys())`. -/
def sortedKeys (vd : List (String × String)) : List String :=
  List.insertionSort (· ≤ ·) (vd.map Prod.fst)

/-- The `available_vars` string:
`", ".join(f"\x7b\x7bk\x7d\x7d" for k in sorted(var_dict.keys()))`. -/
def availableVarsStr (vd : List (String × String)) : String :=
  String.intercalate ", " ((sortedKeys vd).map braced)

/-- The `ValueError` message built by `_substitute_string` /
`_substitute_args.substitute` for an unknown variable; `site` is
`" in: "` or `" in argument: "`. -/
def unknownVarMsg (n site value : String) (vd : List (String × String)) : String :=
  "Unknown variable " ++ sq ++ braced n ++ sq ++ site ++ value ++
    "\nAvailable variables: " ++ availableVarsStr vd

/-- Model of `ScriptExecutor._substitute_string`: render the template; an
unknown variable becomes a `ValueError` with the descriptive message; any
other format failure is a `ValueError` raised by `format` itself (its
message is abstracted as the template). -/
def substituteString (value : String) (vd : List (String × String)) : Except String String :=
  match pyFormat value vd with
  | .ok r => .ok r
  | .error (.keyError n) => .error (unknownVarMsg n " in: " value vd)
  | .error .malformed => .error value

/-- Model of the inner `substitute` of `ScriptExecutor._substitute_args`
(same as `substituteString` but with `"in argument:"` wording). -/
def substituteArgsItem (value : String) (vd : List (String × String)) : Except String String :=
  match pyFormat value vd with
  | .ok r => .ok r
  | .error (.keyError n) => .error (unknownVarMsg n " in argument: " value vd)
  | .error .malformed => .error value

/-- Script arguments: a named-argument map or an ordered list
(`dict[str, str] | list[str]`). -/
inductive Args where
  | dict (l : List (String × String))
  | list (l : List String)
deriving DecidableEq

/-- Model of `ScriptExecutor._substitute_args`: substitute each value. -/
def substituteArgs (args : Args) (vd : List (String × String)) : Except String Args :=
  match args with
  | .dict l =>
    (fun r => Args.dict r) <$>
      l.mapM (fun kv => (fun v => (kv.1, v)) <$> substituteArgsItem kv.2 vd)
  | .list l =>
    (fun r => Args.list r) <$> l.mapM (fun v => substituteArgsItem v vd)

/-! ## File variables (executor.py: `FileVariables`) -/

/-- Model of the `FileVariables` dataclass. -/
structure FileVariables where
  file_path : String
  relative_path : String
  filename : String
  database : String
  group_path : String
  base_folder : String := ""
  log_level : String := "INFO"
deriving DecidableEq

/-- The relative component list used by `FileVariables.from_file`: the
path relative to the base folder, or the full path when the file is not
under the base folder (the caught `ValueError` branch). -/
def relativeParts (fp base : List String) : List String :=
  match relativeTo? fp base with
  | some r => r
  | none => fp

/-- Model of `FileVariables.from_file`. -/
def FileVariables.from_file (fp base : List String) (log_level : String) : FileVariables :=
  let relative := relativeParts fp base
  let parts := relative
  let filename := lastName relative
  let database := if 2 ≤ parts.length then parts.headD "" else ""
  let group_path :=
    if 2 ≤ parts.length then
      (if 2 < parts.length then pathStr ((parts.drop 1).dropLast) else "")
    else ""
  { file_path := pathStr fp
    relative_path := pathStr relative
    filename := filename
    database := database
    group_path := group_path
    base_folder := pathStr base
    log_level := log_level }

/-- Model of `FileVariables.as_dict` (insertion order as in the source). -/
def FileVariables.as_dict (v : FileVariables) : List (String × String) :=
  [("file_path", v.file_path),
   ("relative_path", v.relative_path),
   ("filename", v.filename),
   ("database", v.database),
   ("group_path", v.group_path),
   ("base_folder", v.base_folder),
   ("log_level", v.log_level)]

/-! ## Script execution (executor.py: `ScriptExecutor.execute`) -/

/-- Model of the `ScriptConfig` dataclass (config.py). -/
structure ScriptConfig where
  name : String
  type : String
  path : String
  enabled : Bool := true
  args : Args := .dict []
  cwd : Option String := none
  include_paths : List String := []
  exclude_paths : List String := []
deriving DecidableEq

/-- Model of the `ExecutionResult` dataclass. -/
structure ExecutionResult where
  success : Bool
  output : String := ""
  error : Option String := none
  duration_ms : Nat := 0
  stderr : String := ""
deriving DecidableEq

/-- Oracles for the parts of `execute` that touch the outside world: the
result of actually spawning the external process, whether the resolved
script file exists, and whether the configured working directory is a
directory. -/
structure ExecEnv where
  subprocResult : ExecutionResult
  scriptPathExists : Bool := true
  cwdIsDir : Bool := true

/-- Model of `ScriptExecutor._execute_command` after substitution:
`shlex` tokenization is abstracted as succeeding; a configured working
directory that is not a directory fails before spawning. -/
def executeCommand (env : ExecEnv) (cwd : Option String) : ExecutionResult :=
  match cwd with
  | some c =>
    if env.cwdIsDir then env.subprocResult
    else { success := false, output := "",
           error := some ("Working directory does not exist: " ++ c), duration_ms := 0 }
  | none => env.subprocResult

/-- Model of `ScriptExecutor.execute`: substitute the arguments (and, for
`command` scripts, the command string and working directory); a
substitution `ValueError` becomes a failure result; for
`applescript`/`python` the script file must exist; an unknown type is a
failure. -/
def executeExecute (env : ExecEnv) (s : ScriptConfig) (v : FileVariables) : ExecutionResult :=
  let vd := v.as_dict
  match substituteArgs s.args vd with
  | .error e => { success := false, output := "", error := some e, duration_ms := 0 }
  | .ok _ =>
    if s.type = "command" then
      match substituteString s.path vd with
      | .error e => { success := false, output := "", error := some e, duration_ms := 0 }
      | .ok _ =>
        match s.cwd with
        | some c =>
          match substituteString c vd with
          | .error e => { success := false, output := "", error := some e, duration_ms := 0 }
          | .ok c2 => executeCommand env (some c2)
        | none => executeCommand env none
    else if ¬ env.scriptPathExists then
      { success := false, output := "",
        error := some ("Script not found: " ++ s.path), duration_ms := 0 }
    else if s.type = "applescript" ∨ s.type = "python" then
      env.subprocResult
    else
      { success := false, output := "",
        error := some ("Unknown script type: " ++ s.type), duration_ms := 0 }

/-! ## Pipeline manager (pipeline.py: `PipelineManager`) -/

/-- Observable side effects of a `process_file` call: scripts launched,
notifications emitted, archival moves, and the success callback. -/
inductive Event where
  | execScript (name : String)
  | notifyError (title body : String)
  | notifySuccess (title body : String)
  | archived (dest : String)
  | onSuccessCb
deriving DecidableEq

/-- The immutable part of a `PipelineManager`: its configuration. -/
structure PM where
  scripts : List ScriptConfig
  retry_count : Nat := 3
  global_exclude_paths : List String := []
  base_folder : List String := []
  log_level : String := "INFO"
  on_success : Bool := false

/-- The mutable state of a `PipelineManager`: the failure map and the two
counters. -/
structure PMState where
  failed_files : List (String × Nat) := []
  files_processed : Nat := 0
  active_processing : Nat := 0
deriving DecidableEq

/-- Filesystem oracles consumed by one `process_file` call: whether the
source file exists, whether a candidate archive destination exists, and
whether the archive move itself succeeds (an `OSError` from `mkdir` /
`shutil.move` is caught and only logged). -/
structure FsEnv where
  fileExists : Bool := true
  archExists : String → Bool := fun _ => false
  moveOk : Bool := true

/-- Failure-map lookup with default 0 (`self._failed_files.get(key, 0)`). -/
def lookupD (l : List (String × Nat)) (k : String) : Nat :=
  match l with
  | [] => 0
  | (k0, v0) :: rest => if k0 = k then v0 else lookupD rest k

/-- Failure-map update (`self._failed_files[key] = v`). -/
def setKey (l : List (String × Nat)) (k : String) (v : Nat) : List (String × Nat) :=
  match l with
  | [] => [(k, v)]
  | (k0, v0) :: rest => if k0 = k then (k0, v) :: rest else (k0, v0) :: setKey rest k v

/-- Failure-map removal (`self._failed_files.pop(key, None)`). -/
def popKey (l : List (String × Nat)) (k : String) : List (String × Nat) :=
  match l with
  | [] => []
  | (k0, v0) :: rest => if k0 = k then popKey rest k else (k0, v0) :: popKey rest k

/-- Model of `PipelineManager.__init__`'s global-exclude setup: the user
patterns with `"_Archived/*"` appended when not already present. -/
def mkGlobalExcludes (user : List String) : List String :=
  if "_Archived/*" ∈ user then user else user ++ ["_Archived/*"]

/-- Model of `PipelineManager._should_run_script`. -/
def should_run_script (s : ScriptConfig) (relative_path : String) : Bool :=
  if s.include_paths.isEmpty && s.exclude_paths.isEmpty then true
  else if s.exclude_paths.any (fun pat => fnmatch relative_path pat) then false
  else if s.include_paths.isEmpty then true
  else s.include_paths.any (fun pat => fnmatch relative_path pat)

/-- Model of `PipelineManager._is_globally_excluded`. -/
def is_globally_excluded (pm : PM) (relative_path : String) : Bool :=
  pm.global_exclude_paths.any (fun pat => fnmatch relative_path pat)

/-- Model of `PipelineManager._should_skip_file`:
`failure_count >= retry_count`. -/
def should_skip_file (pm : PM) (st : PMState) (file_key : String) : Bool :=
  decide (pm.retry_count ≤ lookupD st.failed_files file_key)

/-- Model of `PipelineManager._record_failure`: bump the counter; when no
retries remain, emit the permanent-failure notification. -/
def record_failure (pm : PM) (st : PMState) (file_key : String) : PMState × List Event :=
  let current := lookupD st.failed_files file_key
  let st2 := { st with failed_files := setKey st.failed_files file_key (current + 1) }
  if current + 1 < pm.retry_count then (st2, [])
  else (st2, [Event.notifyError "Import Failed Permanently"
    "Max retries exceeded for file. Check logs for details."])

/-- Model of `PipelineManager._archive_file`: `ValueError` (file outside
the base folder) and `OSError` (failed move) are caught and logged, but
the `RuntimeError` from suffix exhaustion is NOT caught and propagates
(`Except.error`). -/
def archive_file (env : FsEnv) (pm : PM) (fp : List String) : Except Unit (List Event) :=
  match relativeTo? fp pm.base_folder with
  | none => .ok []
  | some _ =>
    match getUniqueArchivePath env.archExists (lastName fp) with
    | .error _ => .error ()
    | .ok destName => .ok (if env.moveOk then [Event.archived destName] else [])

/-- The enabled scripts that pass the per-script path filters (the list
comprehension in `_do_process_file`). -/
def filteredScripts (pm : PM) (relative_path : String) : List ScriptConfig :=
  (pm.scripts.filter (fun s => s.enabled)).filter
    (fun s => should_run_script s relative_path)

/-- The body of the notification sent when a script fails:
`f"\x7bfile_path.name\x7d: \x7bresult.error or 'Unknown error'\x7d"`. -/
def failBody (fname : String) (err : Option String) : String :=
  fname ++ ": " ++
    (match err with
     | some e => if e = "" then "Unknown error" else e
     | none => "Unknown error")

/-- The script loop of `_do_process_file`: run scripts in order; on the
first failure record one failure, notify, and stop.  Returns the state,
the emitted events, and whether every script succeeded. -/
def runScripts (exec : ScriptConfig → FileVariables → ExecutionResult) (pm : PM)
    (file_key fname : String) (vars : FileVariables) :
    List ScriptConfig → PMState → PMState × List Event × Bool
  | [], st => (st, [], true)
  | s :: rest, st =>
    let r := exec s vars
    if r.success then
      let next := runScripts exec pm file_key fname vars rest st
      (next.1, Event.execScript s.name :: next.2.1, next.2.2)
    else
      let rec1 := record_failure pm st file_key
      (rec1.1,
       Event.execScript s.name ::
         (rec1.2 ++ [Event.notifyError "Import Failed" (failBody fname r.error)]),
       false)

/-- Model of `PipelineManager._do_process_file`: build the variables,
filter the scripts (zero matches → plain `False`), run them; on full
success archive (suffix exhaustion propagates as `Except.error`, losing
the steps after it), clear the failure entry, bump the processed counter,
fire the callback and the success notification. -/
def do_process_file (exec : ScriptConfig → FileVariables → ExecutionResult)
    (env : FsEnv) (pm : PM) (st : PMState) (fp : List String) (file_key : String) :
    Except Unit Bool × PMState × List Event :=
  let vars := FileVariables.from_file fp pm.base_folder pm.log_level
  match filteredScripts pm vars.relative_path with
  | [] => (.ok false, st, [])
  | s0 :: rest =>
    let run := runScripts exec pm file_key (lastName fp) vars (s0 :: rest) st
    if run.2.2 then
      match archive_file env pm fp with
      | .error _ => (.error (), run.1, run.2.1)
      | .ok aevs =>
        let st2 := { run.1 with
          failed_files := popKey run.1.failed_files file_key
          files_processed := run.1.files_processed + 1 }
        (.ok true, st2,
         run.2.1 ++ aevs ++
           (if pm.on_success then [Event.onSuccessCb] else []) ++
           [Event.notifySuccess "Import Complete" (lastName fp ++ " imported successfully")])
    else (.ok false, run.1, run.2.1)

/-- The relative path computed by `process_file` (with the
file-name fallback when the file is outside the base folder). -/
def relPathOf (pm : PM) (fp : List String) : String :=
  match relativeTo? fp pm.base_folder with
  | some r => pathStr r
  | none => lastName fp

/-- Model of `PipelineManager.process_file`: the retry-skip check, the
existence check, the global-exclude check, then the guarded body with the
active-processing counter incremented and decremented (also on the
exception path, as the `finally` does). -/
def process_file (exec : ScriptConfig → FileVariables → ExecutionResult)
    (env : FsEnv) (pm : PM) (st : PMState) (fp : List String) :
    Except Unit Bool × PMState × List Event :=
  let file_key := pathStr fp
  if should_skip_file pm st file_key then (.ok false, st, [])
  else if ¬ env.fileExists then (.ok false, st, [])
  else if is_globally_excluded pm (relPathOf pm fp) then (.ok false, st, [])
  else
    let st1 := { st with active_processing := st.active_processing + 1 }
    let res := do_process_file exec env pm st1 fp file_key
    (res.1, { res.2.1 with active_processing := res.2.1.active_processing - 1 }, res.2.2)

/-- Model of `PipelineManager.reset_failures`. -/
def reset_failures (st : PMState) : PMState :=
  { st with failed_files := [] }

/-! ## Stability detection (watcher.py: `StabilityCheckHandler._check_stability`) -/

/-- Outcome of one stability check.  The ready callback is invoked exactly
when the outcome is `stable`. -/
inductive StabResult where
  | stable (size : Nat) (iter : Nat)
  | timedOut
  | disappeared
  | outOfFuel
deriving DecidableEq

/-- Model of the `_check_stability` polling loop, sampled discretely:
`obs k` is the size observed at poll `k` (`none` when the file has
disappeared or `stat` fails — both abandon silently), and elapsed time at
poll `k` is `k * check` (time advances by the `sleep(check)` between
polls).  `fuel` bounds the number of polls; `timedOut` is the silent
timeout abandonment, `stable` the break that triggers the callback. -/
def checkStability (check timeoutS : ℚ) (obs : Nat → Option Nat) :
    Nat → Nat → Option Nat → StabResult
  | 0, _, _ => .outOfFuel
  | fuel + 1, k, last =>
    if timeoutS < (k : ℚ) * check then .timedOut
    else
      match obs k with
      | none => .disappeared
      | some cur =>
        if last = some cur ∧ 0 < cur then .stable cur k
        else checkStability check timeoutS obs fuel (k + 1) (some cur)

/-- Whether the `on_file_ready` callback fires for an outcome. -/
def invokesReady : StabResult → Bool
  | .stable _ _ => true
  | _ => false

/-! ## Run-once mode (main.py: `run_once` and the `main` guards) -/

/-- The per-watcher totals accumulated by `run_once`: each inner list is
the sequence of `process_file` results for the files discovered by that
watcher's backlog scan.  Returns (total_files, total_success). -/
def runOnceTotals : List (List Bool) → Nat × Nat
  | [] => (0, 0)
  | files :: rest =>
    let acc := runOnceTotals rest
    (acc.1 + files.length, acc.2 + (files.filter id).length)

/-- Model of `run_once`: exit 0 when `total_failed = 0`, else 1. -/
def run_once (results : List (List Bool)) : Nat :=
  let acc := runOnceTotals results
  if acc.1 - acc.2 = 0 then 0 else 1

/-- Model of `main` restricted to run-once mode: a configuration-load
failure exits 1; a lock-acquisition failure exits 1; no enabled watchers
(also reported as a config error) exits 1; otherwise the `run_once`
result. -/
def mainRunonce (configOk lockOk hasEnabled : Bool) (results : List (List Bool)) : Nat :=
  if ¬ configOk then 1
  else if ¬ lockOk then 1
  else if ¬ hasEnabled then 1
  else run_once results

/-! ## Concrete example configurations (used by witnesses and
counterexamples) -/

/-- A single enabled script with no filters and no arguments. -/
def exScriptC5 : ScriptConfig := { name := "s1", type := "python", path := "s1.py" }

/-- A pipeline with one script, watching base folder `b`. -/
def exPmC5 : PM := { scripts := [exScriptC5], base_folder := ["b"] }

/-- A filesystem where the source file exists and every candidate archive
destination already exists (all 1000 suffix slots taken). -/
def exEnvC5 : FsEnv := { fileExists := true, archExists := fun _ => true, moveOk := true }

/-- A script whose argument list references the unknown variable `nope`. -/
def exScriptC7 : ScriptConfig :=
  { name := "s1", type := "python", path := "s1.py", args := .list ["\x7bnope\x7d"] }

/-- A pipeline with the bad-argument script, watching base folder `b`. -/
def exPmC7 : PM := { scripts := [exScriptC7], base_folder := ["b"] }

/-- The substitution context for `b/f.pdf` under base `b`. -/
def exVarsC7 : FileVariables := FileVariables.from_file ["b", "f.pdf"] ["b"] "INFO"

/-- The unknown-variable message produced for `exScriptC7`. -/
def exErrC7 : String := unknownVarMsg "nope" " in argument: " "\x7bnope\x7d" exVarsC7.as_dict

/-! ## Shared helper lemmas -/

theorem relativeTo?_append (base rest : List String) :
    relativeTo? (base ++ rest) base = some rest := by
  induction base with
  | nil => cases rest <;> rfl
  | cons b bs ih => simp [relativeTo?, ih]

theorem lookupD_setKey (l : List (String × Nat)) (k : String) (v : Nat) :
    lookupD (setKey l k v) k = v := by
  induction l with
  | nil => simp [setKey, lookupD]
  | cons kv rest ih =>
    by_cases h : kv.1 = k
    · cases kv; simp_all [setKey, lookupD]
    · cases kv; simp_all [setKey, lookupD]

theorem runScripts_all_success
    (exec : ScriptConfig → FileVariables → ExecutionResult) (pm : PM)
    (file_key fname : String) (vars : FileVariables) :
    ∀ (scripts : List ScriptConfig) (st : PMState),
      (∀ s ∈ scripts, (exec s vars).success = true) →
      runScripts exec pm file_key fname vars scripts st =
        (st, scripts.map (fun s => Event.execScript s.name), true) := by
  intro scripts
  induction scripts with
  | nil => intro st _; rfl
  | cons s rest ih =>
    intro st hall
    have hs : (exec s vars).success = true := hall s (by simp)
    have hrest : ∀ x ∈ rest, (exec x vars).success = true := by
      intro x hx; exact hall x (by simp [hx])
    simp [runScripts, hs, ih st hrest]

/-! ## Claim C1 -/

/-- Claim C1: the per-script filter decision.  With no include and no
exclude patterns the script runs; any matching exclude pattern makes it
never run (independent of includes); with excludes present but none
matching and no includes it runs; and with includes present (and no
exclude matching) it runs iff at least one include pattern matches. -/
theorem c1_filter_decision (s : ScriptConfig) (p : String) :
    (s.include_paths = [] → s.exclude_paths = [] → should_run_script s p = true) ∧
    ((∃ pat ∈ s.exclude_paths, fnmatch p pat = true) → should_run_script s p = false) ∧
    (s.exclude_paths ≠ [] → (∀ pat ∈ s.exclude_paths, fnmatch p pat = false) →
      s.include_paths = [] → should_run_script s p = true) ∧
    (s.include_paths ≠ [] → (∀ pat ∈ s.exclude_paths, fnmatch p pat = false) →
      (should_run_script s p = true ↔ ∃ pat ∈ s.include_paths, fnmatch p pat = true)) := by
  refine ⟨?_, ?_, ?_, ?_⟩
  · intro h1 h2
    simp [should_run_script, h1, h2]
  · rintro ⟨pat, hmem, hm⟩
    have hany : s.exclude_paths.any (fun pat => fnmatch p pat) = true :=
      List.any_eq_true.mpr ⟨pat, hmem, hm⟩
    have hne : s.exclude_paths.isEmpty = false := by
      cases hx : s.exclude_paths with
      | nil => rw [hx] at hmem; simp at hmem
      | cons a t => simp
    simp [should_run_script, hany, hne]
  · intro hne hall hinc
    have hany : s.exclude_paths.any (fun pat => fnmatch p pat) = false := by
      simp only [List.any_eq_false]
      intro pat hmem
      simp [hall pat hmem]
    have hne2 : s.exclude_paths.isEmpty = false := by
      cases hx : s.exclude_paths with
      | nil => exact absurd hx hne
      | cons a t => simp
    simp [should_run_script, hany, hne2, hinc]
  · intro hincne hall
    have hany : s.exclude_paths.any (fun pat => fnmatch p pat) = false := by
      simp only [List.any_eq_false]
      intro pat hmem
      simp [hall pat hmem]
    have hinc2 : s.include_paths.isEmpty = false := by
      cases hx : s.include_paths with
      | nil => exact absurd hx hincne
      | cons a t => simp
    simp [should_run_script, hany, hinc2, List.any_eq_true]

/-- Witness for C1: all four branches of the filter decision at concrete
scripts and paths. -/
theorem c1_filter_decision_witness :
    should_run_script { name := "a", type := "python", path := "a.py" } "DB/x.pdf" = true ∧
    should_run_script { name := "b", type := "python", path := "b.py", include_paths := ["*.pdf"], exclude_paths := ["DB/*"] } "DB/x.pdf" = false ∧
    should_run_script { name := "c", type := "python", path := "c.py", exclude_paths := ["Z/*"] } "DB/x.pdf" = true ∧
    (should_run_script { name := "d", type := "python", path := "d.py", include_paths := ["*.pdf"] } "DB/x.pdf" = true ↔
      ∃ pat ∈ ["*.pdf"], fnmatch "DB/x.pdf" pat = true) := by
  refine ⟨?_, ?_, ?_, ?_⟩
  · exact (c1_filter_decision _ _).1 rfl rfl
  · exact (c1_filter_decision _ _).2.1 ⟨"DB/*", by decide, by decide⟩
  · exact (c1_filter_decision _ _).2.2.1 (by decide) (by decide) rfl
  · exact (c1_filter_decision _ _).2.2.2 (by decide) (by decide)

/-! ## Claim C2 -/

/-- Claim C2: the give-up boundary.  When the recorded failure count for a
path has reached `retry_count`, `process_file` returns a skip (`False`)
without running any script, with the state unchanged and no events (no
counter change, no notification); and after `reset_failures` the same
path passes the skip check again (given a positive retry limit). -/
theorem c2_give_up_boundary
    (exec : ScriptConfig → FileVariables → ExecutionResult) (env : FsEnv)
    (pm : PM) (st : PMState) (fp : List String)
    (h : pm.retry_count ≤ lookupD st.failed_files (pathStr fp)) :
    process_file exec env pm st fp = (.ok false, st, []) ∧
    (0 < pm.retry_count → ∀ k, should_skip_file pm (reset_failures st) k = false) := by
  constructor
  · simp [process_file, should_skip_file, h]
  · intro hpos k
    simp [should_skip_file, reset_failures, lookupD]
    omega

/-- Witness for C2: a file that failed 3 times with a limit of 3 is
skipped with no side effects, and is eligible again after a reset. -/
theorem c2_give_up_boundary_witness :
    process_file (fun _ _ => { success := true }) { } { scripts := [], retry_count := 3 } { failed_files := [("f.pdf", 3)] } ["f.pdf"] = (.ok false, { failed_files := [("f.pdf", 3)] }, []) ∧
    (0 < 3 → ∀ k, should_skip_file { scripts := [], retry_count := 3 } (reset_failures { failed_files := [("f.pdf", 3)] }) k = false) :=
  c2_give_up_boundary _ _ _ _ _ (by decide)

/-! ## Claim C9 -/

/-- Claim C9: with `retry_count = 0` every `process_file` call returns
`False` immediately — no script execution, no failure recording, no
archival, no counter changes — because `failure_count >= retry_count`
already holds at zero recorded failures. -/
theorem c9_retry_count_zero
    (exec : ScriptConfig → FileVariables → ExecutionResult) (env : FsEnv)
    (pm : PM) (st : PMState) (fp : List String)
    (h : pm.retry_count = 0) :
    process_file exec env pm st fp = (.ok false, st, []) := by
  simp [process_file, should_skip_file, h]

/-- Witness for C9 at a concrete pipeline with `retry_count = 0`. -/
theorem c9_retry_count_zero_witness :
    process_file (fun _ _ => { success := true }) { } { scripts := [{ name := "s", type := "python", path := "s.py" }], retry_count := 0 } { } ["b", "f.pdf"] = (.ok false, { }, []) :=
  c9_retry_count_zero _ _ _ _ _ rfl

/-! ## Claim C3 -/

/-- Claim C3: a file whose relative path matches any global-exclude glob
is skipped by `process_file` before any script executes: the result is
`False`, the failure map, processed counter and active counter are
unchanged, and no notification or other event is emitted. -/
theorem c3_global_exclude
    (exec : ScriptConfig → FileVariables → ExecutionResult) (env : FsEnv)
    (pm : PM) (st : PMState) (fp : List String) (pat : String)
    (hmem : pat ∈ pm.global_exclude_paths)
    (hm : fnmatch (relPathOf pm fp) pat = true) :
    process_file exec env pm st fp = (.ok false, st, []) := by
  have hex : is_globally_excluded pm (relPathOf pm fp) = true :=
    List.any_eq_true.mpr ⟨pat, hmem, hm⟩
  by_cases h1 : should_skip_file pm st (pathStr fp)
  · simp [process_file, h1]
  · by_cases h2 : env.fileExists
    · simp [process_file, h1, h2, hex]
    · simp [process_file, h1, h2]

/-- Witness for C3: a file inside `_Archived` is silently skipped. -/
theorem c3_global_exclude_witness :
    process_file (fun _ _ => { success := true }) { } { scripts := [{ name := "s", type := "python", path := "s.py" }], global_exclude_paths := ["_Archived/*"], base_folder := ["b"] } { } ["b", "_Archived", "f.pdf"] = (.ok false, { }, []) :=
  c3_global_exclude _ _ _ _ _ "_Archived/*" (by decide) (by decide)

/-! ## Claim C10 -/

/-- Claim C10: for a file directly in the watch base folder (relative
path of exactly one component), `FileVariables.from_file` sets `database`
and `group_path` to the empty string while `filename` and `relative_path`
are the bare file name; and `database` is non-empty only when the
relative path has at least two components. -/
theorem c10_single_component :
    (∀ (base : List String) (name lvl : String),
      (FileVariables.from_file (base ++ [name]) base lvl).database = "" ∧
      (FileVariables.from_file (base ++ [name]) base lvl).group_path = "" ∧
      (FileVariables.from_file (base ++ [name]) base lvl).filename = name ∧
      (FileVariables.from_file (base ++ [name]) base lvl).relative_path = name) ∧
    (∀ (fp b : List String) (lv : String),
      (FileVariables.from_file fp b lv).database ≠ "" →
      2 ≤ (relativeParts fp b).length) := by
  constructor
  · intro base name lvl
    have hrel : relativeParts (base ++ [name]) base = [name] := by
      simp [relativeParts, relativeTo?_append]
    simp [FileVariables.from_file, hrel, lastName, pathStr]
  · intro fp b lv h
    by_cases hlen : 2 ≤ (relativeParts fp b).length
    · exact hlen
    · exfalso
      apply h
      simp [FileVariables.from_file, hlen]

/-- Witness for C10: a file directly under the base folder, and a
two-component relative path with a non-empty database. -/
theorem c10_single_component_witness :
    ((FileVariables.from_file (["b"] ++ ["doc.pdf"]) ["b"] "INFO").database = "" ∧
     (FileVariables.from_file (["b"] ++ ["doc.pdf"]) ["b"] "INFO").group_path = "" ∧
     (FileVariables.from_file (["b"] ++ ["doc.pdf"]) ["b"] "INFO").filename = "doc.pdf" ∧
     (FileVariables.from_file (["b"] ++ ["doc.pdf"]) ["b"] "INFO").relative_path = "doc.pdf") ∧
    2 ≤ (relativeParts ["b", "DB", "doc.pdf"] ["b"]).length := by
  constructor
  · exact c10_single_component.1 ["b"] "doc.pdf" "INFO"
  · exact c10_single_component.2 ["b", "DB", "doc.pdf"] ["b"] "INFO" (by decide)

/-! ## Claim C4 -/

theorem trySlots_finds (ex : String → Bool) (fn : String) :
    ∀ (r i M : Nat), i ≤ M → M < i + r →
      (∀ k, i ≤ k → k < M → ex (suffixedName fn k) = true) →
      ex (suffixedName fn M) = false →
      trySlots ex fn i r = .ok (suffixedName fn M) := by
  intro r
  induction r with
  | zero => intro i M h1 h2 _ _; omega
  | succ r ih =>
    intro i M h1 h2 hall hM
    by_cases hi : i = M
    · subst hi
      simp [trySlots, hM]
    · have hilt : i < M := lt_of_le_of_ne h1 hi
      have hex : ex (suffixedName fn i) = true := hall i le_rfl hilt
      simp only [trySlots, hex, if_true]
      exact ih (i + 1) M hilt (by omega) (fun k hk1 hk2 => hall k (by omega) hk2) hM

theorem trySlots_exhaust (ex : String → Bool) (fn : String) :
    ∀ (r i : Nat), i + r ≤ 1000 →
      (∀ k, k < 1000 → ex (suffixedName fn k) = true) →
      trySlots ex fn i r = .error (exhaustMsg fn) := by
  intro r
  induction r with
  | zero => intro i _ _; rfl
  | succ r ih =>
    intro i hle hall
    have hex : ex (suffixedName fn i) = true := hall i (by omega)
    simp only [trySlots, hex, if_true]
    exact ih (i + 1) (by omega) hall

/-- Claim C4: archive collision resolution is deterministic and
monotonic.  When the base name exists and exactly the slots `0..M-1` are
taken (so the directory already holds `M+1` files under this destination
name), the next file resolves to `suffixedName fn M`, i.e. the name with
`-{M:03d}` inserted before the extension (first collision `-000`, second
`-001`, …, up to `-999`); and when the base name and all 1000 slots are
taken, the call reports an error rather than silently dropping the
file. -/
theorem c4_archive_collision :
    (∀ (ex : String → Bool) (fn : String) (M : Nat),
      M ≤ 999 → ex fn = true →
      (∀ k, k < M → ex (suffixedName fn k) = true) →
      ex (suffixedName fn M) = false →
      getUniqueArchivePath ex fn = .ok (suffixedName fn M)) ∧
    (∀ (ex : String → Bool) (fn : String),
      ex fn = true →
      (∀ k, k < 1000 → ex (suffixedName fn k) = true) →
      getUniqueArchivePath ex fn = .error (exhaustMsg fn)) := by
  constructor
  · intro ex fn M hM hbase hall hfree
    simp only [getUniqueArchivePath, hbase, if_true]
    exact trySlots_finds ex fn 1000 0 M (by omega) (by omega)
      (fun k _ hk => hall k hk) hfree
  · intro ex fn hbase hall
    simp only [getUniqueArchivePath, hbase, if_true]
    exact trySlots_exhaust ex fn 1000 0 (by omega) hall

/-- Witness for C4: the first collision of `report.docx` resolves to
`report-000.docx` (extension preserved), and a directory with the base
name and all 1000 slots taken yields the exhaustion error. -/
theorem c4_archive_collision_witness :
    getUniqueArchivePath (fun n => n == "report.docx") "report.docx" = .ok "report-000.docx" ∧
    getUniqueArchivePath (fun _ => true) "report.docx" = .error (exhaustMsg "report.docx") := by
  constructor
  · have h := c4_archive_collision.1 (fun n => n == "report.docx") "report.docx" 0
      (by omega) (by decide) (fun k hk => absurd hk (by omega)) (by decide)
    rw [show suffixedName "report.docx" 0 = "report-000.docx" from by decide] at h
    exact h
  · exact c4_archive_collision.2 (fun _ => true) "report.docx" rfl (fun k _ => rfl)

/-! ## Claim C8 -/

theorem filter_id_length_le (l : List Bool) : (l.filter id).length ≤ l.length := by
  induction l with
  | nil => simp
  | cons b t ih =>
    cases b <;> simp [List.filter_cons] <;> omega

theorem filter_id_length_eq_iff (l : List Bool) :
    (l.filter id).length = l.length ↔ ∀ b ∈ l, b = true := by
  induction l with
  | nil => simp
  | cons b t ih =>
    cases b with
    | false =>
      simp only [List.filter_cons]
      have hle := filter_id_length_le t
      simp only [id]
      constructor
      · intro h
        exfalso
        simp at h
        omega
      · intro h
        exfalso
        have := h false (by simp)
        simp at this
    | true =>
      have hstep : ((true :: t).filter id).length = (t.filter id).length + 1 := by
        simp [List.filter_cons]
      rw [hstep, List.length_cons]
      constructor
      · intro h
        have h2 : (t.filter id).length = t.length := by omega
        intro b hb
        rcases List.mem_cons.mp hb with h3 | h3
        · exact h3
        · exact ih.mp h2 b h3
      · intro h
        have h2 : (t.filter id).length = t.length :=
          ih.mpr (fun b hb => h b (List.mem_cons.mpr (Or.inr hb)))
        omega

theorem runOnceTotals_le (rs : List (List Bool)) :
    (runOnceTotals rs).2 ≤ (runOnceTotals rs).1 := by
  induction rs with
  | nil => simp [runOnceTotals]
  | cons l rest ih =>
    have := filter_id_length_le l
    simp only [runOnceTotals]
    omega

theorem runOnceTotals_eq_iff (rs : List (List Bool)) :
    (runOnceTotals rs).1 = (runOnceTotals rs).2 ↔ ∀ l ∈ rs, ∀ b ∈ l, b = true := by
  induction rs with
  | nil => simp [runOnceTotals]
  | cons l rest ih =>
    have h1 := filter_id_length_le l
    have h2 := runOnceTotals_le rest
    simp only [runOnceTotals]
    constructor
    · intro h
      have hl : (l.filter id).length = l.length := by omega
      have hr : (runOnceTotals rest).1 = (runOnceTotals rest).2 := by omega
      intro x hx
      rcases List.mem_cons.mp hx with h3 | h3
      · subst h3; exact (filter_id_length_eq_iff x).mp hl
      · exact ih.mp hr x h3
    · intro h
      have hl : (l.filter id).length = l.length :=
        (filter_id_length_eq_iff l).mpr (h l (List.mem_cons.mpr (Or.inl rfl)))
      have hr : (runOnceTotals rest).1 = (runOnceTotals rest).2 :=
        ih.mpr (fun x hx => h x (List.mem_cons.mpr (Or.inr hx)))
      omega

theorem run_once_zero_iff (rs : List (List Bool)) :
    run_once rs = 0 ↔ ∀ l ∈ rs, ∀ b ∈ l, b = true := by
  have hle := runOnceTotals_le rs
  have heq := runOnceTotals_eq_iff rs
  unfold run_once
  by_cases h : (runOnceTotals rs).1 - (runOnceTotals rs).2 = 0
  · simp only [if_pos h]
    constructor
    · intro _
      exact heq.mp (by omega)
    · intro _; trivial
  · simp only [if_neg h]
    constructor
    · intro h10; omega
    · intro hall
      exfalso
      have := heq.mpr hall
      omega

/-- Claim C8: in run-once mode the exit code is 1 when the configuration
failed to load or the single-instance lock could not be acquired; and
with a loaded config, an acquired lock and at least one enabled watcher,
the exit code is 0 iff every discovered file's pipeline run returned
success. -/
theorem c8_exit_codes (results : List (List Bool)) (configOk lockOk hasEnabled : Bool) :
    ((configOk = false ∨ lockOk = false) →
      mainRunonce configOk lockOk hasEnabled results = 1) ∧
    (configOk = true → lockOk = true → hasEnabled = true →
      (mainRunonce configOk lockOk hasEnabled results = 0 ↔
        ∀ l ∈ results, ∀ b ∈ l, b = true)) := by
  constructor
  · rintro (h | h) <;> simp [mainRunonce, h]
  · intro h1 h2 h3
    simp only [mainRunonce, h1, h2, h3]
    simpa using run_once_zero_iff results

/-- Witness for C8: a config failure exits 1; two successful files exit
0 and the all-succeeded property holds. -/
theorem c8_exit_codes_witness :
    mainRunonce false true true [[true]] = 1 ∧
    (mainRunonce true true true [[true, true]] = 0 ↔
      ∀ l ∈ [[true, true]], ∀ b ∈ l, b = true) := by
  constructor
  · exact (c8_exit_codes [[true]] false true true).1 (Or.inl rfl)
  · exact (c8_exit_codes [[true, true]] true true true).2 rfl rfl rfl

/-! ## Claim C6 -/

theorem checkStability_stable_pair (check timeoutS : ℚ) (obs : Nat → Option Nat) :
    ∀ (fuel k : Nat) (last : Option Nat) (s i : Nat),
      (k = 0 → last = none) → (0 < k → last = obs (k - 1)) →
      checkStability check timeoutS obs fuel k last = .stable s i →
      0 < i ∧ obs (i - 1) = some s ∧ obs i = some s ∧ 0 < s ∧
        (i : ℚ) * check ≤ timeoutS := by
  intro fuel
  induction fuel with
  | zero =>
    intro k last s i _ _ h
    simp [checkStability] at h
  | succ fuel ih =>
    intro k last s i h0 hpos h
    rw [checkStability] at h
    by_cases ht : timeoutS < (k : ℚ) * check
    · rw [if_pos ht] at h
      simp at h
    · rw [if_neg ht] at h
      cases hobs : obs k with
      | none =>
        rw [hobs] at h
        simp at h
      | some cur =>
        simp only [hobs] at h
        by_cases hc : last = some cur ∧ 0 < cur
        · rw [if_pos hc] at h
          have hsk : cur = s ∧ k = i := by
            cases h
            exact ⟨rfl, rfl⟩
          obtain ⟨hs, hk⟩ := hsk
          subst hs
          subst hk
          have hkpos : 0 < k := by
            by_contra hzero
            have hk0 : k = 0 := by omega
            have := h0 hk0
            rw [this] at hc
            exact absurd hc.1 (by simp)
          refine ⟨hkpos, ?_, hobs, hc.2, le_of_not_lt ht⟩
          rw [← hpos hkpos]
          exact hc.1
        · rw [if_neg hc] at h
          exact ih (k + 1) (some cur) s i (by omega)
            (fun _ => by simpa using hobs.symm) h

theorem checkStability_finds_stable (check timeoutS : ℚ) (obs : Nat → Option Nat)
    (f : Nat → Nat) (K : Nat)
    (hc : 0 ≤ check) (hobs : ∀ n, obs n = some (f n))
    (hpair : f K = f (K + 1)) (hpos : 0 < f (K + 1))
    (htime : ((K + 1 : Nat) : ℚ) * check ≤ timeoutS) :
    ∀ (fuel j : Nat) (last : Option Nat),
      j ≤ K + 1 → K + 2 - j ≤ fuel →
      (0 < j → last = some (f (j - 1))) →
      ∃ s i, checkStability check timeoutS obs fuel j last = .stable s i := by
  intro fuel
  induction fuel with
  | zero =>
    intro j last hj hfuel _
    omega
  | succ fuel ih =>
    intro j last hj hfuel hlast
    rw [checkStability]
    have hjt : ¬ timeoutS < (j : ℚ) * check := by
      have hcast : (j : ℚ) ≤ ((K + 1 : Nat) : ℚ) := by exact_mod_cast hj
      have := mul_le_mul_of_nonneg_right hcast hc
      push_neg
      linarith
    rw [if_neg hjt]
    simp only [hobs]
    by_cases hcond : last = some (f j) ∧ 0 < f j
    · exact ⟨f j, j, by rw [if_pos hcond]⟩
    · have hjK : j ≤ K := by
        by_contra hh
        have hje : j = K + 1 := by omega
        apply hcond
        subst hje
        constructor
        · rw [hlast (by omega)]
          simp [← hpair]
        · exact hpos
      simp only [if_neg hcond]
      exact ih (j + 1) (some (f j)) (by omega) (by omega) (fun _ => by simp)

theorem checkStability_changing_timeout (check timeoutS : ℚ) (obs : Nat → Option Nat)
    (f : Nat → Nat) (hobs : ∀ n, obs n = some (f n)) (hch : ∀ n, f (n + 1) ≠ f n) :
    ∀ (fuel k : Nat) (last : Option Nat),
      last ≠ some (f k) → timeoutS < ((k + fuel : Nat) : ℚ) * check →
      checkStability check timeoutS obs (fuel + 1) k last = .timedOut := by
  intro fuel
  induction fuel with
  | zero =>
    intro k last _ ht
    rw [checkStability]
    rw [if_pos (by simpa using ht)]
  | succ fuel ih =>
    intro k last hlast ht
    rw [checkStability]
    by_cases h : timeoutS < (k : ℚ) * check
    · rw [if_pos h]
    · rw [if_neg h]
      simp only [hobs]
      rw [if_neg (fun hc => hlast hc.1)]
      apply ih (k + 1) (some (f k))
      · intro hq
        have : f k = f (k + 1) := by
          injection hq
        exact hch k this.symm
      · have harith : (k + 1 + fuel : Nat) = (k + (fuel + 1) : Nat) := by omega
        rw [harith]
        exact ht

/-- Claim C6: stability detection.  (1) A run declared stable did sample
two consecutive identical non-zero sizes within the timeout (and the
ready callback fires exactly for the stable outcome); (2) when some
consecutive pair of samples is identical and non-zero within the timeout,
the check does declare stability (given enough polls); (3) when the size
changes at every consecutive pair of polls, the check times out, is
abandoned with no callback, and never declares stability. -/
theorem c6_stability (check timeoutS : ℚ) (obs : Nat → Option Nat) :
    (∀ (fuel s i : Nat),
      checkStability check timeoutS obs fuel 0 none = .stable s i →
      invokesReady (checkStability check timeoutS obs fuel 0 none) = true ∧
      0 < i ∧ obs (i - 1) = some s ∧ obs i = some s ∧ 0 < s ∧
        (i : ℚ) * check ≤ timeoutS) ∧
    (∀ (f : Nat → Nat) (K fuel : Nat),
      0 ≤ check → (∀ n, obs n = some (f n)) →
      f K = f (K + 1) → 0 < f (K + 1) →
      ((K + 1 : Nat) : ℚ) * check ≤ timeoutS → K + 2 ≤ fuel →
      ∃ s i, checkStability check timeoutS obs fuel 0 none = .stable s i) ∧
    (∀ (f : Nat → Nat) (fuel : Nat),
      (∀ n, obs n = some (f n)) → (∀ n, f (n + 1) ≠ f n) →
      timeoutS < (fuel : ℚ) * check →
      checkStability check timeoutS obs (fuel + 1) 0 none = .timedOut ∧
      invokesReady (checkStability check timeoutS obs (fuel + 1) 0 none) = false) := by
  refine ⟨?_, ?_, ?_⟩
  · intro fuel s i h
    have := checkStability_stable_pair check timeoutS obs fuel 0 none s i
      (fun _ => rfl) (fun hk => absurd hk (by omega)) h
    rw [h]
    exact ⟨rfl, this⟩
  · intro f K fuel hc hobs hpair hpos htime hfuel
    exact checkStability_finds_stable check timeoutS obs f K hc hobs hpair hpos htime
      fuel 0 none (by omega) (by omega) (fun hk => absurd hk (by omega))
  · intro f fuel hobs hch ht
    have h := checkStability_changing_timeout check timeoutS obs f hobs hch fuel 0 none
      (by simp) (by simpa using ht)
    rw [h]
    exact ⟨rfl, rfl⟩

/-- Witness for C6: with a 1-second interval and 10-second timeout, a
file holding size 5 is declared stable on the second poll; a file whose
size grows every poll times out with no callback. -/
theorem c6_stability_witness :
    (invokesReady (checkStability 1 10 (fun _ => some 5) 5 0 none) = true ∧
      0 < 1 ∧ (fun _ => some 5) 0 = some 5 ∧ (fun (_ : Nat) => some 5) 1 = some 5 ∧
      0 < 5 ∧ ((1 : Nat) : ℚ) * 1 ≤ 10) ∧
    (∃ s i, checkStability 1 10 (fun _ => some 5) 5 0 none = .stable s i) ∧
    (checkStability 1 10 (fun n => some (n + 1)) (11 + 1) 0 none = .timedOut ∧
      invokesReady (checkStability 1 10 (fun n => some (n + 1)) (11 + 1) 0 none) = false) := by
  refine ⟨?_, ?_, ?_⟩
  · have h := (c6_stability 1 10 (fun _ => some 5)).1 5 5 1 (by norm_num [checkStability]; simp)
    exact ⟨h.1, h.2.1, h.2.2.1, h.2.2.2.1, h.2.2.2.2.1, h.2.2.2.2.2⟩
  · exact (c6_stability 1 10 (fun _ => some 5)).2.1 (fun _ => 5) 0 5
      (by norm_num) (fun _ => rfl) rfl (by norm_num) (by norm_num) (by omega)
  · exact (c6_stability 1 10 (fun n => some (n + 1))).2.2 (fun n => n + 1) 11
      (fun _ => rfl) (fun n => Nat.succ_ne_self (n + 1)) (by norm_num)

/-! ## Claim C7 -/

theorem exceptMap_error_inv {α β : Type} (g : α → β) (x : Except FmtErr α) (e : FmtErr)
    (h : x.map g = .error e) : x = .error e := by
  cases x with
  | error e2 => simpa [Except.map] using h
  | ok a => simp [Except.map] at h

theorem pyFormatAux_keyError (vd : List (String × String)) :
    ∀ (fuel : Nat) (l : List Char) (n : String),
      pyFormatAux vd fuel l = .error (.keyError n) → lookupStr vd n = none := by
  intro fuel
  induction fuel with
  | zero =>
    intro l n h
    simp [pyFormatAux] at h
  | succ fuel ih =>
    intro l n h
    cases l with
    | nil => simp [pyFormatAux] at h
    | cons c rest =>
      simp only [pyFormatAux] at h
      split at h
      · -- c = lb: placeholder handling
        split at h
        · -- rest = []
          simp at h
        · -- rest = c2 :: rest2
          split at h
          · -- c2 = lb: escaped brace
            exact ih _ n (exceptMap_error_inv _ _ _ h)
          · -- a field follows
            split at h
            · -- spanField = none
              simp at h
            · -- spanField = some (field, rest3)
              split at h
              · -- lookupStr = none: the KeyError site
                rename_i field rest3 _hsp hlk
                simp only [Except.error.injEq, FmtErr.keyError.injEq] at h
                rw [← h]
                exact hlk
              · exact ih _ n (exceptMap_error_inv _ _ _ h)
      · -- c is not lb
        split at h
        · -- c = rb
          split at h
          · split at h
            · exact ih _ n (exceptMap_error_inv _ _ _ h)
            · simp at h
          · simp at h
        · -- ordinary character
          exact ih _ n (exceptMap_error_inv _ _ _ h)

theorem pyFormat_keyError (value : String) (vd : List (String × String)) (n : String)
    (h : pyFormat value vd = .error (.keyError n)) : lookupStr vd n = none := by
  unfold pyFormat at h
  exact pyFormatAux_keyError vd _ _ _ (exceptMap_error_inv _ _ _ h)

theorem executeExecute_subst_fail (eenv : ExecEnv) (s : ScriptConfig) (v : FileVariables)
    (e : String) (h : substituteArgs s.args v.as_dict = .error e) :
    executeExecute eenv s v =
      { success := false, output := "", error := some e, duration_ms := 0 } := by
  simp only [executeExecute, h]

theorem runScripts_first_fail (exec : ScriptConfig → FileVariables → ExecutionResult)
    (pm : PM) (file_key fname : String) (vars : FileVariables)
    (s : ScriptConfig) (rest : List ScriptConfig) (st : PMState)
    (h : (exec s vars).success = false) :
    runScripts exec pm file_key fname vars (s :: rest) st =
      ((record_failure pm st file_key).1,
       Event.execScript s.name ::
         ((record_failure pm st file_key).2 ++
          [Event.notifyError "Import Failed" (failBody fname (exec s vars).error)]),
       false) := by
  simp [runScripts, h]

theorem record_failure_state (pm : PM) (st : PMState) (k : String) :
    (record_failure pm st k).1 =
      { st with failed_files := setKey st.failed_files k (lookupD st.failed_files k + 1) } := by
  simp only [record_failure]
  split <;> rfl

theorem do_process_first_fail (exec : ScriptConfig → FileVariables → ExecutionResult)
    (env : FsEnv) (pm : PM) (st1 : PMState) (fp : List String) (key : String)
    (s : ScriptConfig) (rest : List ScriptConfig)
    (h4 : filteredScripts pm (FileVariables.from_file fp pm.base_folder pm.log_level).relative_path = s :: rest)
    (h5 : (exec s (FileVariables.from_file fp pm.base_folder pm.log_level)).success = false) :
    do_process_file exec env pm st1 fp key =
      (.ok false, (record_failure pm st1 key).1,
       Event.execScript s.name ::
         ((record_failure pm st1 key).2 ++
          [Event.notifyError "Import Failed"
            (failBody (lastName fp)
              (exec s (FileVariables.from_file fp pm.base_folder pm.log_level)).error)])) := by
  simp only [do_process_file, h4]
  rw [runScripts_first_fail exec pm key (lastName fp) _ s rest st1 h5]
  simp

theorem process_file_first_fail (exec : ScriptConfig → FileVariables → ExecutionResult)
    (env : FsEnv) (pm : PM) (st : PMState) (fp : List String)
    (s : ScriptConfig) (rest : List ScriptConfig)
    (h1 : should_skip_file pm st (pathStr fp) = false)
    (h2 : env.fileExists = true)
    (h3 : is_globally_excluded pm (relPathOf pm fp) = false)
    (h4 : filteredScripts pm (FileVariables.from_file fp pm.base_folder pm.log_level).relative_path = s :: rest)
    (h5 : (exec s (FileVariables.from_file fp pm.base_folder pm.log_level)).success = false) :
    (process_file exec env pm st fp).1 = .ok false ∧
    lookupD (process_file exec env pm st fp).2.1.failed_files (pathStr fp) =
      lookupD st.failed_files (pathStr fp) + 1 ∧
    Event.notifyError "Import Failed"
        (failBody (lastName fp)
          (exec s (FileVariables.from_file fp pm.base_folder pm.log_level)).error)
      ∈ (process_file exec env pm st fp).2.2 := by
  have hdo := do_process_first_fail exec env pm
    { st with active_processing := st.active_processing + 1 } fp (pathStr fp) s rest h4 h5
  have hpf : process_file exec env pm st fp =
      (.ok false,
       { (record_failure pm { st with active_processing := st.active_processing + 1 } (pathStr fp)).1 with
           active_processing :=
             (record_failure pm { st with active_processing := st.active_processing + 1 } (pathStr fp)).1.active_processing - 1 },
       Event.execScript s.name ::
         ((record_failure pm { st with active_processing := st.active_processing + 1 } (pathStr fp)).2 ++
          [Event.notifyError "Import Failed"
            (failBody (lastName fp)
              (exec s (FileVariables.from_file fp pm.base_folder pm.log_level)).error)])) := by
    simp [process_file, h1, h2, h3, hdo]
  rw [hpf]
  refine ⟨rfl, ?_, ?_⟩
  · rw [record_failure_state]
    simp [lookupD_setKey]
  · simp

/-- Claim C7: unknown-variable handling.  (1) When rendering a template
or argument value hits a placeholder whose name is not in the mapping
(a `KeyError` of the `format` model), the name is indeed absent from the
mapping and both substitution entry points fail with the descriptive
message that names the placeholder and lists all available variable
names, and that listing is sorted.  (2) Inside a pipeline run, a script
whose argument substitution fails this way becomes a failed step: the
result is an ordinary `False` (no exception escapes), one failure is
recorded for the file, and the failure notification is emitted. -/
theorem c7_unknown_variable :
    (∀ (vd : List (String × String)) (value n : String),
      pyFormat value vd = .error (.keyError n) →
      lookupStr vd n = none ∧
      substituteString value vd = .error (unknownVarMsg n " in: " value vd) ∧
      substituteArgsItem value vd = .error (unknownVarMsg n " in argument: " value vd) ∧
      List.Sorted (· ≤ ·) (sortedKeys vd)) ∧
    (∀ (eenv : ExecEnv) (env : FsEnv) (pm : PM) (st : PMState) (fp : List String)
       (s : ScriptConfig) (rest : List ScriptConfig) (e : String),
      should_skip_file pm st (pathStr fp) = false →
      env.fileExists = true →
      is_globally_excluded pm (relPathOf pm fp) = false →
      filteredScripts pm (FileVariables.from_file fp pm.base_folder pm.log_level).relative_path = s :: rest →
      substituteArgs s.args (FileVariables.from_file fp pm.base_folder pm.log_level).as_dict = .error e →
      (process_file (executeExecute eenv) env pm st fp).1 = .ok false ∧
      lookupD (process_file (executeExecute eenv) env pm st fp).2.1.failed_files (pathStr fp) =
        lookupD st.failed_files (pathStr fp) + 1 ∧
      Event.notifyError "Import Failed" (failBody (lastName fp) (some e))
        ∈ (process_file (executeExecute eenv) env pm st fp).2.2) := by
  constructor
  · intro vd value n h
    refine ⟨pyFormat_keyError value vd n h, ?_, ?_, ?_⟩
    · simp [substituteString, h]
    · simp [substituteArgsItem, h]
    · simpa [sortedKeys] using
        List.sorted_insertionSort (α := String) (· ≤ ·) (vd.map Prod.fst)
  · intro eenv env pm st fp s rest e hskip hex hglob hfilt hsub
    have hfail := executeExecute_subst_fail eenv s
      (FileVariables.from_file fp pm.base_folder pm.log_level) e hsub
    have h5 : (executeExecute eenv s (FileVariables.from_file fp pm.base_folder pm.log_level)).success = false := by
      rw [hfail]
    have herr : (executeExecute eenv s (FileVariables.from_file fp pm.base_folder pm.log_level)).error = some e := by
      rw [hfail]
    have hmain := process_file_first_fail (executeExecute eenv) env pm st fp s rest
      hskip hex hglob hfilt h5
    rw [herr] at hmain
    exact hmain

/-- Witness for C7: the unknown placeholder `missing` in a template over
a one-variable mapping, and the script `exScriptC7` whose argument
references the unknown `nope` inside a concrete pipeline run. -/
theorem c7_unknown_variable_witness :
    (lookupStr [("a", "1")] "missing" = none ∧
     substituteString "x \x7bmissing\x7d" [("a", "1")] =
       .error (unknownVarMsg "missing" " in: " "x \x7bmissing\x7d" [("a", "1")]) ∧
     substituteArgsItem "x \x7bmissing\x7d" [("a", "1")] =
       .error (unknownVarMsg "missing" " in argument: " "x \x7bmissing\x7d" [("a", "1")]) ∧
     List.Sorted (· ≤ ·) (sortedKeys [("a", "1")])) ∧
    ((process_file (executeExecute { subprocResult := { success := true } }) { } exPmC7 { } ["b", "f.pdf"]).1 = .ok false ∧
     lookupD (process_file (executeExecute { subprocResult := { success := true } }) { } exPmC7 { } ["b", "f.pdf"]).2.1.failed_files (pathStr ["b", "f.pdf"]) =
       lookupD (PMState.failed_files { }) (pathStr ["b", "f.pdf"]) + 1 ∧
     Event.notifyError "Import Failed" (failBody (lastName ["b", "f.pdf"]) (some exErrC7))
       ∈ (process_file (executeExecute { subprocResult := { success := true } }) { } exPmC7 { } ["b", "f.pdf"]).2.2) := by
  constructor
  · exact c7_unknown_variable.1 [("a", "1")] "x \x7bmissing\x7d" "missing" rfl
  · exact c7_unknown_variable.2 { subprocResult := { success := true } } { } exPmC7 { }
      ["b", "f.pdf"] exScriptC7 [] exErrC7 rfl rfl rfl rfl rfl

/-! ## Claim C5 -/

theorem c5_exhaustion
    (exec : ScriptConfig → FileVariables → ExecutionResult) (env : FsEnv)
    (pm : PM) (st : PMState) (fp : List String)
    (h1 : should_skip_file pm st (pathStr fp) = false)
    (h2 : env.fileExists = true)
    (h3 : is_globally_excluded pm (relPathOf pm fp) = false)
    (h4 : filteredScripts pm (FileVariables.from_file fp pm.base_folder pm.log_level).relative_path ≠ [])
    (h5 : ∀ s ∈ filteredScripts pm (FileVariables.from_file fp pm.base_folder pm.log_level).relative_path,
        (exec s (FileVariables.from_file fp pm.base_folder pm.log_level)).success = true)
    (h6 : relativeTo? fp pm.base_folder ≠ none)
    (h7 : env.archExists (lastName fp) = true)
    (h8 : ∀ k, k < 1000 → env.archExists (suffixedName (lastName fp) k) = true) :
    process_file exec env pm st fp =
      (.error (), st,
       (filteredScripts pm (FileVariables.from_file fp pm.base_folder pm.log_level).relative_path).map
         (fun s => Event.execScript s.name)) := by
  obtain ⟨ff, fpc, ap⟩ := st
  have harch : archive_file env pm fp = .error () := by
    unfold archive_file
    cases hrel : relativeTo? fp pm.base_folder with
    | none => exact absurd hrel h6
    | some r =>
      have hget : getUniqueArchivePath env.archExists (lastName fp) =
          .error (exhaustMsg (lastName fp)) := by
        simp only [getUniqueArchivePath, h7, if_true]
        exact trySlots_exhaust _ _ 1000 0 (by omega) h8
      simp [hget]
  cases hfs : filteredScripts pm (FileVariables.from_file fp pm.base_folder pm.log_level).relative_path with
  | nil => exact absurd hfs h4
  | cons s0 rest =>
    rw [hfs] at h5
    have hrun := runScripts_all_success exec pm (pathStr fp) (lastName fp)
      (FileVariables.from_file fp pm.base_folder pm.log_level) (s0 :: rest)
      ⟨ff, fpc, ap + 1⟩ h5
    have hdo : do_process_file exec env pm ⟨ff, fpc, ap + 1⟩ fp (pathStr fp) =
        (.error (), ⟨ff, fpc, ap + 1⟩,
         (s0 :: rest).map (fun s => Event.execScript s.name)) := by
      simp only [do_process_file, hfs]
      rw [hrun]
      simp [harch]
    simp [process_file, h1, h2, h3, hdo, hfs]

set_option maxRecDepth 8000 in
/-- Counterexample for C5 as stated: a pipeline whose single script
succeeds, over an archive directory whose 1000 suffix slots are all
taken.  `process_file` does NOT preserve the post-archival side effects:
the exception escapes (`Except.error`), the processed counter stays 0,
the failure map is untouched, and the only event is the script execution
— no success notification was emitted, contradicting the claim that
those side effects still take effect. -/
theorem c5_counterexample :
    process_file (fun _ _ => { success := true }) exEnvC5 exPmC5 { } ["b", "f.txt"] =
      (.error (), { }, [Event.execScript "s1"]) ∧
    (process_file (fun _ _ => { success := true }) exEnvC5 exPmC5 { } ["b", "f.txt"]).2.1.files_processed = 0 := by
  constructor <;> rfl

/-- Amended claim C5: when archive-suffix exhaustion occurs after all
scripts succeeded, the `RuntimeError` is not caught anywhere in
`PipelineManager`: it propagates out of `process_file` (modelled as
`Except.error ()`); the failure-counter clearing, processed-counter
increment, success callback and success notification that follow archival
do NOT take effect; the only state change kept is that the `finally`
block restores the active-processing counter, so the state is exactly as
before the call, and the only events are the script executions. -/
theorem c5_exhaustion_amended
    (exec : ScriptConfig → FileVariables → ExecutionResult) (env : FsEnv)
    (pm : PM) (st : PMState) (fp : List String)
    (h1 : should_skip_file pm st (pathStr fp) = false)
    (h2 : env.fileExists = true)
    (h3 : is_globally_excluded pm (relPathOf pm fp) = false)
    (h4 : filteredScripts pm (FileVariables.from_file fp pm.base_folder pm.log_level).relative_path ≠ [])
    (h5 : ∀ s ∈ filteredScripts pm (FileVariables.from_file fp pm.base_folder pm.log_level).relative_path,
        (exec s (FileVariables.from_file fp pm.base_folder pm.log_level)).success = true)
    (h6 : relativeTo? fp pm.base_folder ≠ none)
    (h7 : env.archExists (lastName fp) = true)
    (h8 : ∀ k, k < 1000 → env.archExists (suffixedName (lastName fp) k) = true) :
    (process_file exec env pm st fp).1 = .error () ∧
    (process_file exec env pm st fp).2.1 = st ∧
    (∀ t b, Event.notifySuccess t b ∉ (process_file exec env pm st fp).2.2) := by
  have h := c5_exhaustion exec env pm st fp h1 h2 h3 h4 h5 h6 h7 h8
  rw [h]
  refine ⟨rfl, rfl, ?_⟩
  intro t b hmem
  simp only [List.mem_map] at hmem
  obtain ⟨x, _, hx⟩ := hmem
  exact Event.noConfusion hx

/-- Witness for the amended C5 at the concrete exhausted-archive
configuration. -/
theorem c5_exhaustion_amended_witness :
    (process_file (fun _ _ => { success := true }) exEnvC5 exPmC5 { } ["b", "f.txt"]).1 = .error () ∧
    (process_file (fun _ _ => { success := true }) exEnvC5 exPmC5 { } ["b", "f.txt"]).2.1 = { } ∧
    (∀ t b, Event.notifySuccess t b ∉
      (process_file (fun _ _ => { success := true }) exEnvC5 exPmC5 { } ["b", "f.txt"]).2.2) :=
  c5_exhaustion_amended _ _ _ _ _ rfl rfl rfl (by decide) (by decide) (by decide)
    rfl (fun _ _ => rfl)

end Rap
